import Mathlib

/-!
Verification of the EmailAgent decision pipeline.

Shallow embedding of the core modules:
  - `src/safety.py` (SafetyModule: dry-run, confidence threshold, sliding-window rate limit)
  - `src/rule_engine.py` (RuleEngine: ordered first-match rule evaluation)
  - `src/clients/gmail_client.py` (thread-context resolution strategies)
  - `src/core/action_registry.py` (ReplyAction handler)

Python floats for wall-clock timestamps are modelled as `Int` seconds; AI
confidence scores (floats in [0,1]) are modelled as `ℚ`.  Python strings are
Lean `String`s, with case folding / trimming / substring search implemented
over the underlying character lists so that terms reduce by `decide` and `rfl`.
IMAP transport calls are modelled by an oracle (`Transport`) whose operations
return `Except`, a raised exception being the `.error` case; every issued
query is logged in a trace so that frame claims about "no transport query"
are expressible.
-/

/-! ## String helpers (models of Python str.lower / str.strip / `in` / str.replace) -/

/-- Model of Python `str.lower()` (per-character case folding). -/
def strLower (s : String) : String := ⟨s.data.map Char.toLower⟩

/-- Characters stripped by Python `str.strip()` with no argument. -/
def isSpaceChar (c : Char) : Bool := c.isWhitespace

/-- Model of Python `str.strip()`: drop whitespace from both ends. -/
def strTrim (s : String) : String :=
  ⟨((s.data.dropWhile isSpaceChar).reverse.dropWhile isSpaceChar).reverse⟩

/-- Characters stripped by `str.strip("<>")` in `_search_by_header`. -/
def isAngleChar (c : Char) : Bool := c = '<' || c = '>'

/-- Model of Python `str.strip("<>")`. -/
def stripAngles (s : String) : String :=
  ⟨((s.data.dropWhile isAngleChar).reverse.dropWhile isAngleChar).reverse⟩

/-- Substring test on character lists: some tail of `h` starts with `n`
    (model of Python `n in h`). -/
def hasSubstr (h n : List Char) : Bool := h.tails.any (fun t => n.isPrefixOf t)

/-- Case-insensitive containment `pattern.lower() in haystack.lower()` used by
    the rule engine's sender/subject conditions. -/
def strContainsCI (haystack pattern : String) : Bool :=
  hasSubstr (strLower haystack).data (strLower pattern).data

/-- Left-to-right removal of every occurrence of `pat` (fuel-driven so the
    definition is structurally recursive); model of `s.replace(pat, "")`. -/
def removeOccFuel (pat : List Char) : Nat → List Char → List Char
  | 0, l => l
  | _ + 1, [] => []
  | fuel + 1, c :: rest =>
      if pat ≠ [] ∧ pat.isPrefixOf (c :: rest) then
        removeOccFuel pat fuel (rest.drop (pat.length - 1))
      else c :: removeOccFuel pat fuel rest

/-- Model of Python `s.replace(pat, "")`. -/
def strRemoveAll (s pat : String) : String := ⟨removeOccFuel pat.data s.data.length s.data⟩

/-- Split on whitespace runs, auxiliary. -/
def splitWsAux : List Char → List Char → List (List Char)
  | [], acc => [acc.reverse]
  | c :: rest, acc =>
      if isSpaceChar c then acc.reverse :: splitWsAux rest []
      else splitWsAux rest (c :: acc)

/-- Model of Python `str.split()` followed by per-piece strip and dropping of
    empty pieces (as in `EmailData.reference_chain`). -/
def splitWsClean (s : String) : List String :=
  (((splitWsAux s.data []).map (fun l => (⟨l⟩ : String))).map strTrim).filter (fun p => p ≠ "")

/-- Python truthiness of an optional string: `None` and `""` are falsy. -/
def optTruthy (o : Option String) : Bool := o.getD "" ≠ ""

/-! ## Data model (`src/core/models.py`) -/

/-- One entry of `EmailData.thread_messages`: the dict produced by
    `GmailClient._email_data_to_thread_dict` (keys `from`, `subject`, `body`,
    `date`, `message_id`). -/
structure ThreadMsg where
  from_addr : String
  subject : String
  body : String
  date : String
  message_id : String
  deriving Repr, DecidableEq

/-- `EmailData` (only the fields the decision pipeline reads). -/
structure EmailData where
  id : String
  from_address : String
  to_address : String
  subject : String
  body : String
  date : String
  message_id : Option String := none
  in_reply_to : Option String := none
  references : Option String := none
  thread_messages : List ThreadMsg := []
  deriving Repr, DecidableEq

/-- `EmailData.reference_chain`: the References header split into stripped,
    non-empty message identifiers. -/
def EmailData.referenceChain (e : EmailData) : List String :=
  splitWsClean (e.references.getD "")

/-- `EmailData.is_part_of_thread`. -/
def EmailData.isPartOfThread (e : EmailData) : Bool :=
  optTruthy e.in_reply_to || optTruthy e.references || decide (0 < e.thread_messages.length)

/-- `ClassificationResult` (fields consumed by the rule engine and safety gate). -/
structure ClassificationResult where
  intent : String
  priority : String
  confidence : ℚ
  suggested_action : String := "none"
  reasoning : String := ""
  deriving Repr, DecidableEq

/-- `MatchedRule`.  `conditions_matched` is the audit record of which
    conditions fired (the Python dict's keys, in check order; the formatted
    display values are presentation only). -/
structure MatchedRule where
  rule_name : String
  action : String
  auto_send : Bool := false
  template : Option String := none
  conditions_matched : List String := []
  deriving Repr, DecidableEq

/-- `SafetyDecision`. -/
structure SafetyDecision where
  can_execute : Bool
  can_auto_send : Bool
  reasons : List String := []
  warnings : List String := []
  deriving Repr, DecidableEq

/-! ## Safety module (`src/safety.py`) -/

/-- `SafetyConfig` from `config_manager.py`. -/
structure SafetyConfig where
  dry_run : Bool := true
  confidence_threshold : ℚ := 85 / 100
  max_sends_per_hour : Nat := 20
  deriving Repr, DecidableEq

/-- `SafetyModule` state: its config, the `dry_run` flag copied from it, and
    the deque of send timestamps (front = oldest). -/
structure SafetyModule where
  config : SafetyConfig
  dry_run : Bool
  send_timestamps : List Int := []
  deriving Repr, DecidableEq

/-- `SafetyModule.__init__`. -/
def SafetyModule.ofConfig (config : SafetyConfig) : SafetyModule :=
  { config := config, dry_run := config.dry_run, send_timestamps := [] }

/-- `_clean_old_timestamps`: pop from the front while older than one hour. -/
def cleanOldTimestamps (now : Int) (ts : List Int) : List Int :=
  ts.dropWhile (fun t => t < now - 3600)

/-- `_check_confidence`: `confidence >= self.config.confidence_threshold`. -/
def SafetyModule.checkConfidence (m : SafetyModule) (confidence : ℚ) : Bool :=
  decide (m.config.confidence_threshold ≤ confidence)

/-- `_check_rate_limit`: clean, then compare the window size to the cap
    (strict `<`).  Returns the flag together with the mutated module. -/
def SafetyModule.checkRateLimit (m : SafetyModule) (now : Int) : Bool × SafetyModule :=
  let cleaned := cleanOldTimestamps now m.send_timestamps
  (decide (cleaned.length < m.config.max_sends_per_hour),
   { m with send_timestamps := cleaned })

/-- `_get_sends_this_hour`. -/
def SafetyModule.sendsThisHour (m : SafetyModule) (now : Int) : Nat × SafetyModule :=
  let cleaned := cleanOldTimestamps now m.send_timestamps
  (cleaned.length, { m with send_timestamps := cleaned })

/-- `record_send`: append the current wall-clock timestamp. -/
def SafetyModule.recordSend (m : SafetyModule) (now : Int) : SafetyModule :=
  { m with send_timestamps := m.send_timestamps ++ [now] }

/-- `SafetyModule.SAFE_ACTIONS`. -/
def SAFE_ACTIONS : List String := ["ignore", "flag", "flag_and_draft"]

/-- `SafetyModule.SEND_ACTIONS` (documentation only; not consulted by
    `evaluate`). -/
def SEND_ACTIONS : List String := ["reply", "draft_reply", "auto_reply"]

/-- `SafetyModule.evaluate`: run the three gates and combine them into the
    execute / auto-send decision.  The two internal `time.time()` reads are
    modelled by the single instant `now`. -/
def SafetyModule.evaluate (m : SafetyModule) (now : Int)
    (classification : ClassificationResult) (matched_rule : Option MatchedRule) :
    SafetyDecision × SafetyModule :=
  let is_dry_run := m.dry_run
  let reasons0 : List String := if is_dry_run then ["dry_run_active"] else []
  let confidence_ok := m.checkConfidence classification.confidence
  let reasons1 := reasons0 ++ [if confidence_ok then "confidence_ok" else "confidence_too_low"]
  let rl := m.checkRateLimit now
  let rate_limit_ok := rl.1
  let m1 := rl.2
  let reasons2 := reasons1 ++ [if rate_limit_ok then "rate_limit_ok" else "rate_limit_exceeded"]
  let sh := m1.sendsThisHour now
  let sends_this_hour := sh.1
  let m2 := sh.2
  let warnings : List String :=
    if (m.config.max_sends_per_hour : ℚ) * (8 / 10) ≤ (sends_this_hour : ℚ) then
      ["approaching_rate_limit"]
    else []
  let action := match matched_rule with
    | some r => r.action
    | none => "none"
  let is_safe_action := SAFE_ACTIONS.contains action
  let can_execute : Bool :=
    if is_dry_run then false
    else if is_safe_action then confidence_ok
    else confidence_ok && rate_limit_ok
  let auto_send_requested := match matched_rule with
    | some r => r.auto_send
    | none => false
  let can_auto_send := can_execute && auto_send_requested && !is_dry_run &&
    confidence_ok && rate_limit_ok
  ({ can_execute := can_execute, can_auto_send := can_auto_send,
     reasons := reasons2, warnings := warnings }, m2)

/-- `get_status()["sends_this_hour"]`. -/
def SafetyModule.statusSendsThisHour (m : SafetyModule) (now : Int) : Nat :=
  (m.sendsThisHour now).1

/-! ## Rule engine (`src/rule_engine.py`) -/

/-- The condition dict of a `RuleConfig`: each of the five recognised keys is
    optionally present. -/
structure RuleConditions where
  intent : Option String := none
  priority : Option String := none
  confidence_min : Option ℚ := none
  sender_contains : Option String := none
  subject_contains : Option String := none
  deriving Repr, DecidableEq

/-- `RuleConfig` from `config_manager.py`. -/
structure RuleConfig where
  name : String
  conditions : RuleConditions
  action : String
  auto_send : Bool := false
  template : Option String := none
  deriving Repr, DecidableEq

/-- Last check of `_evaluate_rule`: `subject_contains`. -/
def evalSubjectStep (rule : RuleConfig) (email : EmailData) (matched : List String) :
    Bool × List String :=
  match rule.conditions.subject_contains with
  | none => (true, matched)
  | some keyword =>
      if strContainsCI email.subject keyword then (true, matched ++ ["subject_contains"])
      else (false, [])

/-- `sender_contains` check, then the rest. -/
def evalSenderStep (rule : RuleConfig) (email : EmailData) (matched : List String) :
    Bool × List String :=
  match rule.conditions.sender_contains with
  | none => evalSubjectStep rule email matched
  | some pat =>
      if strContainsCI email.from_address pat then
        evalSubjectStep rule email (matched ++ ["sender_contains"])
      else (false, [])

/-- `confidence_min` check (inclusive `>=`), then the rest. -/
def evalConfidenceStep (rule : RuleConfig) (email : EmailData) (c : ClassificationResult)
    (matched : List String) : Bool × List String :=
  match rule.conditions.confidence_min with
  | none => evalSenderStep rule email matched
  | some minimum =>
      if c.confidence < minimum then (false, [])
      else evalSenderStep rule email (matched ++ ["confidence_min"])

/-- `priority` exact-equality check, then the rest. -/
def evalPriorityStep (rule : RuleConfig) (email : EmailData) (c : ClassificationResult)
    (matched : List String) : Bool × List String :=
  match rule.conditions.priority with
  | none => evalConfidenceStep rule email c matched
  | some expected =>
      if c.priority ≠ expected then (false, [])
      else evalConfidenceStep rule email c (matched ++ ["priority"])

/-- `RuleEngine._evaluate_rule`: the five optional checks in source order,
    each failing check returning `(False, {})` at once. -/
def evaluateRule (rule : RuleConfig) (email : EmailData) (c : ClassificationResult) :
    Bool × List String :=
  match rule.conditions.intent with
  | none => evalPriorityStep rule email c []
  | some expected =>
      if c.intent ≠ expected then (false, [])
      else evalPriorityStep rule email c ["intent"]

/-- The `MatchedRule` built by `RuleEngine.match` for a winning rule. -/
def toMatchedRule (rule : RuleConfig) (conds : List String) : MatchedRule :=
  { rule_name := rule.name, action := rule.action, auto_send := rule.auto_send,
    template := rule.template, conditions_matched := conds }

/-- `RuleEngine.match`: first rule (in configured order) whose conditions all
    hold; `none` when no rule matches. -/
def matchRules (rules : List RuleConfig) (email : EmailData) (c : ClassificationResult) :
    Option MatchedRule :=
  match rules with
  | [] => none
  | rule :: rest =>
      let res := evaluateRule rule email c
      if res.1 then some (toMatchedRule rule res.2)
      else matchRules rest email c

/-- Spec-level reading of a rule's conditions all being satisfied: intent and
    priority by exact equality, minimum confidence by inclusive `≥`, sender and
    subject by case-insensitive substring containment. -/
def conditionsSatisfied (rule : RuleConfig) (email : EmailData) (c : ClassificationResult) :
    Prop :=
  (∀ x, rule.conditions.intent = some x → c.intent = x) ∧
  (∀ x, rule.conditions.priority = some x → c.priority = x) ∧
  (∀ q, rule.conditions.confidence_min = some q → q ≤ c.confidence) ∧
  (∀ p, rule.conditions.sender_contains = some p →
    (strLower p).data <:+: (strLower email.from_address).data) ∧
  (∀ k, rule.conditions.subject_contains = some k →
    (strLower k).data <:+: (strLower email.subject).data)

/-! ## Thread resolver (`src/clients/gmail_client.py`) -/

/-- A transport query, logged when issued (IMAP connect/select, search by
    header, search by subject). -/
inductive TQuery where
  | connectQ : TQuery
  | headerQ : String → String → TQuery
  | subjectQ : String → TQuery
  deriving Repr, DecidableEq

/-- The mail transport oracle.  `.error` models a raised exception; `.ok []`
    models a non-OK status or an empty result set.  Per-message RFC822 fetches
    are collapsed into the result list (a failed or unparsable fetch is simply
    absent, as the source skips it with `continue`). -/
structure Transport where
  connect : Except String Unit
  headerSearch : String → String → Except String (List EmailData)
  subjectSearch : String → Except String (List EmailData)

/-- `_email_data_to_thread_dict`: reduced projection with the body truncated
    to 500 characters. -/
def emailToThreadMsg (e : EmailData) : ThreadMsg :=
  { from_addr := e.from_address, subject := e.subject,
    body := ⟨e.body.data.take 500⟩, date := e.date,
    message_id := e.message_id.getD "" }

/-- The seen-set update of the searches: stripped identifiers of truthy
    `message_id`s. -/
def midsOf (msgs : List ThreadMsg) : List String :=
  msgs.filterMap (fun m => if m.message_id ≠ "" then some (strTrim m.message_id) else none)

/-- `_search_by_header`: strip the value, search, retry with angle brackets on
    an empty/non-OK answer, and keep every fetched message whose (truthy,
    stripped) identifier is not already seen.  All exceptions are caught
    inside, so the function itself is total; the trace records the queries it
    issued. -/
def searchByHeader (tr : Transport) (headerName headerValue : String) (seen : List String) :
    List ThreadMsg × List TQuery :=
  let searchValue := stripAngles (strTrim headerValue)
  let process : List EmailData → List ThreadMsg := fun emails =>
    emails.foldl (fun acc e =>
      if optTruthy e.message_id ∧ strTrim (e.message_id.getD "") ∈ seen then acc
      else acc ++ [emailToThreadMsg e]) []
  match tr.headerSearch headerName searchValue with
  | .error _ => ([], [TQuery.headerQ headerName searchValue])
  | .ok [] =>
      let bracketed := "<" ++ searchValue ++ ">"
      match tr.headerSearch headerName bracketed with
      | .error _ =>
          ([], [TQuery.headerQ headerName searchValue, TQuery.headerQ headerName bracketed])
      | .ok emails =>
          (process emails,
           [TQuery.headerQ headerName searchValue, TQuery.headerQ headerName bracketed])
  | .ok emails => (process emails, [TQuery.headerQ headerName searchValue])

/-- `_fetch_thread_by_references`: walk the References chain, skipping blank
    or already-seen identifiers, extending the accumulator and the seen set,
    and stopping once the accumulated count reaches the depth. -/
def fetchThreadByReferences (tr : Transport) (depth : Nat) :
    List String → List String → List ThreadMsg → List ThreadMsg × List String × List TQuery
  | [], seen, acc => (acc, seen, [])
  | refId :: rest, seen, acc =>
      let r := strTrim refId
      if r = "" ∨ r ∈ seen then fetchThreadByReferences tr depth rest seen acc
      else
        let sr := searchByHeader tr "Message-ID" r seen
        let acc2 := acc ++ sr.1
        let seen2 := seen ++ midsOf sr.1
        if depth ≤ acc2.length then (acc2, seen2, sr.2)
        else
          let rec2 := fetchThreadByReferences tr depth rest seen2 acc2
          (rec2.1, rec2.2.1, sr.2 ++ rec2.2.2)

/-- The reply/forward markers removed by the subject cleaners. -/
def replyTags : List String := ["Re:", "RE:", "re:", "Fwd:", "FWD:", "fwd:", "Fw:", "FW:"]

/-- The subject cleaning loop: for each marker, remove every occurrence and
    strip (`clean_subject.replace(prefix_tag, "").strip()`). -/
def cleanSubject (s : String) : String :=
  replyTags.foldl (fun acc p => strTrim (strRemoveAll acc p)) s

/-- The fetch-and-filter loop of `_fetch_thread_by_subject`: stop at depth,
    skip seen identifiers, skip subjects that do not match the cleaned subject
    case-insensitively, otherwise append and mark seen. -/
def subjectLoop (depth : Nat) (cs : String) :
    List EmailData → List String → List ThreadMsg → List ThreadMsg
  | [], _, acc => acc
  | e :: rest, seen, acc =>
      if depth ≤ acc.length then acc
      else if optTruthy e.message_id ∧ strTrim (e.message_id.getD "") ∈ seen then
        subjectLoop depth cs rest seen acc
      else if strLower (cleanSubject e.subject) ≠ strLower cs then
        subjectLoop depth cs rest seen acc
      else
        subjectLoop depth cs rest
          (if optTruthy e.message_id then seen ++ [strTrim (e.message_id.getD "")] else seen)
          (acc ++ [emailToThreadMsg e])

/-- `_fetch_thread_by_subject`: clean the subject, require at least 5
    characters, search by the first 100 characters, filter to exact cleaned
    case-insensitive subject matches. -/
def fetchThreadBySubject (tr : Transport) (depth : Nat) (email : EmailData)
    (seen : List String) : List ThreadMsg × List TQuery :=
  let cs := cleanSubject email.subject
  if cs = "" ∨ cs.data.length < 5 then ([], [])
  else
    let q : String := ⟨cs.data.take 100⟩
    match tr.subjectSearch q with
    | .error _ => ([], [TQuery.subjectQ q])
    | .ok emails => (subjectLoop depth cs emails seen [], [TQuery.subjectQ q])

/-- The de-duplication pass of `_sort_and_limit_thread`: keep the first
    occurrence of each truthy identifier; blank identifiers always kept. -/
def dedupByMessageId : List ThreadMsg → List String → List ThreadMsg
  | [], _ => []
  | m :: rest, seen =>
      if m.message_id ≠ "" ∧ m.message_id ∈ seen then dedupByMessageId rest seen
      else if m.message_id ≠ "" then m :: dedupByMessageId rest (m.message_id :: seen)
      else m :: dedupByMessageId rest seen

/-- `parse_date_safe`: `none` stands for `datetime.min` (empty or unparsable
    date strings); `pd` is the oracle modelling `parsedate_to_datetime`
    (returning a timestamp, or `none` for a parse exception). -/
def dateKey (pd : String → Option Int) (m : ThreadMsg) : Option Int :=
  if m.date = "" then none else pd m.date

/-- Order on sort keys: `datetime.min` (`none`) sorts before every timestamp. -/
def dateLe (a b : Option Int) : Bool :=
  match a, b with
  | none, _ => true
  | some _, none => false
  | some x, some y => decide (x ≤ y)

/-- Stable insertion of `x` after every already-placed element `y` with
    `le y x` (Python list.sort is stable). -/
def insertStable (le : ThreadMsg → ThreadMsg → Bool) (x : ThreadMsg) :
    List ThreadMsg → List ThreadMsg
  | [] => [x]
  | y :: rest => if le y x then y :: insertStable le x rest else x :: y :: rest

/-- Stable sort (extensionally the unique stable-sorted permutation, matching
    Python's stable `list.sort(key=...)`). -/
def stableSortBy (le : ThreadMsg → ThreadMsg → Bool) (l : List ThreadMsg) : List ThreadMsg :=
  l.foldl (fun acc x => insertStable le x acc) []

/-- `_sort_and_limit_thread`: de-duplicate by identifier, sort by parsed date
    ascending, then apply `unique[-depth:]`.  Note the Python quirk embedded
    faithfully: for `depth = 0` the slice `unique[-0:]` is `unique[0:]`, the
    whole list. -/
def sortAndLimitThread (pd : String → Option Int) (depth : Nat) (msgs : List ThreadMsg) :
    List ThreadMsg :=
  match msgs with
  | [] => []
  | _ =>
      let unique := dedupByMessageId msgs []
      let sorted := stableSortBy (fun a b => dateLe (dateKey pd a) (dateKey pd b)) unique
      if depth < sorted.length then
        if depth = 0 then sorted
        else sorted.drop (sorted.length - depth)
      else sorted

/-- `_populate_thread_context` (connection already open; all transport
    failures are caught inside the three strategy helpers, so the outer
    `except` of the source is unreachable through the transport).  Returns the
    thread messages assigned to the email and the trace of issued queries. -/
def populateThreadContext (tr : Transport) (pd : String → Option Int) (depth : Nat)
    (email : EmailData) : List ThreadMsg × List TQuery :=
  let seen0 : List String :=
    if optTruthy email.message_id then [strTrim (email.message_id.getD "")] else []
  let st1 :=
    if optTruthy email.references then
      fetchThreadByReferences tr depth email.referenceChain seen0 []
    else ([], seen0, [])
  let s1 := st1.1
  let seen1 := st1.2.1 ++ midsOf s1
  let st2 :=
    if optTruthy email.in_reply_to ∧ s1.length = 0 then
      searchByHeader tr "Message-ID" (strTrim (email.in_reply_to.getD "")) seen1
    else ([], [])
  let s2 := st2.1
  let seen2 := seen1 ++ midsOf s2
  let acc := s1 ++ s2
  let st3 :=
    if acc.length = 0 ∧ email.subject ≠ "" then
      fetchThreadBySubject tr depth email seen2
    else ([], [])
  (sortAndLimitThread pd depth (acc ++ st3.1), st1.2.2 ++ st2.2 ++ st3.2)

/-- The thread-context guard of `fetch_unread_emails`: context is populated
    only when enabled, the depth is positive, and the email is part of a
    thread. -/
def enrichWithThreadContext (tr : Transport) (pd : String → Option Int) (depth : Nat)
    (includeCtx : Bool) (email : EmailData) : EmailData × List TQuery :=
  if includeCtx ∧ 0 < depth ∧ email.isPartOfThread then
    let pc := populateThreadContext tr pd depth email
    ({ email with thread_messages := pc.1 }, pc.2)
  else (email, [])

/-- `fetch_thread_context` (public entry point): early return when message_id,
    references and in_reply_to are all falsy; otherwise open a connection
    (a failure there is caught, logged as a warning, and yields the empty
    list) and run the three strategies, the subject fallback through a dummy
    `EmailData` carrying only the subject and message_id.  Result:
    `(thread messages, warning recorded, issued queries)`. -/
def fetchThreadContext (tr : Transport) (pd : String → Option Int) (selfDepth : Nat)
    (message_id references in_reply_to subject : Option String)
    (maxMessages : Option Nat) : List ThreadMsg × Bool × List TQuery :=
  if ¬ optTruthy message_id ∧ ¬ optTruthy references ∧ ¬ optTruthy in_reply_to then
    ([], false, [])
  else
    let effectiveDepth := match maxMessages with
      | some n => if n = 0 then selfDepth else n
      | none => selfDepth
    let seen0 : List String :=
      if optTruthy message_id then [strTrim (message_id.getD "")] else []
    match tr.connect with
    | .error _ => ([], true, [TQuery.connectQ])
    | .ok _ =>
        let st1 :=
          if optTruthy references then
            fetchThreadByReferences tr effectiveDepth
              (splitWsClean (references.getD "")) seen0 []
          else ([], seen0, [])
        let s1 := st1.1
        let seen1 := st1.2.1 ++ midsOf s1
        let st2 :=
          if optTruthy in_reply_to ∧ s1.length = 0 then
            searchByHeader tr "Message-ID" (strTrim (in_reply_to.getD "")) seen1
          else ([], [])
        let s2 := st2.1
        let seen2 := seen1 ++ midsOf s2
        let acc := s1 ++ s2
        let st3 :=
          if acc.length = 0 ∧ optTruthy subject then
            fetchThreadBySubject tr effectiveDepth
              { id := "search", from_address := "", to_address := "",
                subject := subject.getD "", body := "", date := "",
                message_id := message_id } seen2
          else ([], [])
        (sortAndLimitThread pd effectiveDepth (acc ++ st3.1), false,
         TQuery.connectQ :: (st1.2.2 ++ st2.2 ++ st3.2))

/-! ## Action registry (`src/core/action_registry.py`, ReplyAction) -/

/-- The collaborators consumed by `ReplyAction.execute`: the reply generator
    (a function of the selected template text; `none` signals generation
    failure), and the success flags of `send_reply` and `save_draft`. -/
structure ReplyClients where
  generate : Option String → Option String
  sendReply : Bool
  saveDraft : Bool

/-- The template selection of `BaseReplyAction._generate_reply`: a truthy
    template name that is a key of `config.templates` yields the template
    text. -/
def templateTextOf (templates : List (String × String)) (mr : MatchedRule) : Option String :=
  match mr.template with
  | some nm => if nm ≠ "" then templates.lookup nm else none
  | none => none

/-- `ReplyAction.execute` (handler for `reply`, `draft_reply` and
    `flag_and_draft`): generate (failure, including an empty generation,
    yields the `error` outcome); auto-send when permitted and not in dry-run,
    recording the send on success; otherwise save a draft (skipped in
    dry-run, its success only logged) and report `flagged_and_drafted` or
    `draft_saved` by the rule's action. -/
def replyActionExecute (cl : ReplyClients) (templates : List (String × String))
    (dry_run : Bool) (safety : SafetyModule) (now : Int) (email : EmailData)
    (c : ClassificationResult) (matched_rule : MatchedRule) (sd : SafetyDecision) :
    (String × Option String) × SafetyModule :=
  match cl.generate (templateTextOf templates matched_rule) with
  | none => (("error", none), safety)
  | some reply_text =>
      if reply_text = "" then (("error", none), safety)
      else
        let should_send := sd.can_auto_send && !dry_run
        if should_send then
          if cl.sendReply then (("reply_sent", some reply_text), safety.recordSend now)
          else (("error", some reply_text), safety)
        else
          if matched_rule.action = "flag_and_draft" then
            (("flagged_and_drafted", some reply_text), safety)
          else (("draft_saved", some reply_text), safety)

/-! ## Helper lemmas -/

theorem dropWhile_dropWhile_eq {α : Type} (p : α → Bool) (l : List α) :
    (l.dropWhile p).dropWhile p = l.dropWhile p := by
  induction l with
  | nil => simp
  | cons a l ih =>
      by_cases h : p a = true
      · simp [List.dropWhile_cons, h, ih]
      · simp [List.dropWhile_cons, h]

theorem filter_dropWhile_eq {α : Type} (p q : α → Bool)
    (hpq : ∀ a, p a = true → q a = false) (l : List α) :
    (l.dropWhile p).filter q = l.filter q := by
  induction l with
  | nil => simp
  | cons a l ih =>
      by_cases h : p a = true
      · simp [List.dropWhile_cons, h, List.filter_cons, hpq a h, ih]
      · simp [List.dropWhile_cons, h]

theorem dropWhile_is_suffix {α : Type} (p : α → Bool) (l : List α) :
    l.dropWhile p <:+ l := by
  induction l with
  | nil => simp
  | cons a l ih =>
      by_cases h : p a = true
      · simpa [List.dropWhile_cons, h] using ih.trans (List.suffix_cons a l)
      · simp [List.dropWhile_cons, h]

theorem dropWhile_lt_eq_filter (cutoff : Int) (l : List Int)
    (hs : l.Sorted (· ≤ ·)) :
    l.dropWhile (fun t => decide (t < cutoff)) = l.filter (fun t => decide (cutoff ≤ t)) := by
  induction l with
  | nil => simp
  | cons a l ih =>
      obtain ⟨ha, hl⟩ := List.sorted_cons.mp hs
      by_cases h : a < cutoff
      · simp [List.dropWhile_cons, List.filter_cons, h, not_le.mpr h, ih hl]
      · have hca : cutoff ≤ a := not_lt.mp h
        have hall : ∀ x ∈ l, decide (cutoff ≤ x) = true := by
          intro x hx
          simpa using le_trans hca (ha x hx)
        simp [List.dropWhile_cons, List.filter_cons, h, hca, List.filter_eq_self.mpr hall]

/-! ## Claim theorems: safety gate -/

/-- C1: `SafetyModule.evaluate` returns `can_execute` equal to: `false` under
    dry-run; the confidence check alone for safe-set actions; the conjunction
    of the confidence and rate-limit checks otherwise.  `can_auto_send` is the
    conjunction of `can_execute`, the rule's auto-send flag, dry-run being
    inactive, and both checks; hence `can_auto_send` implies `can_execute`. -/
theorem safety_evaluate_gates (m : SafetyModule) (now : Int) (c : ClassificationResult)
    (rule : MatchedRule) :
    ((m.evaluate now c (some rule)).1.can_execute =
      (if m.dry_run then false
       else if SAFE_ACTIONS.contains rule.action then m.checkConfidence c.confidence
       else m.checkConfidence c.confidence && (m.checkRateLimit now).1)) ∧
    ((m.evaluate now c (some rule)).1.can_auto_send =
      ((m.evaluate now c (some rule)).1.can_execute && rule.auto_send && !m.dry_run &&
        m.checkConfidence c.confidence && (m.checkRateLimit now).1)) ∧
    ((m.evaluate now c (some rule)).1.can_auto_send = true →
      (m.evaluate now c (some rule)).1.can_execute = true) := by
  refine ⟨rfl, rfl, ?_⟩
  intro h
  rw [show (m.evaluate now c (some rule)).1.can_auto_send =
      ((m.evaluate now c (some rule)).1.can_execute && rule.auto_send && !m.dry_run &&
        m.checkConfidence c.confidence && (m.checkRateLimit now).1) from rfl] at h
  simp only [Bool.and_eq_true] at h
  exact h.1.1.1.1

/-- C10: `evaluate` never adds to the rate-limit window: the post-state
    timestamps are exactly the cleaned pre-state timestamps (a suffix of the
    pre-state, with the same in-window entries), the window count reported by
    `get_status` is unchanged by `evaluate`, and only `record_send` appends. -/
theorem evaluate_preserves_window (m : SafetyModule) (now : Int)
    (c : ClassificationResult) (mr : Option MatchedRule) :
    (((m.evaluate now c mr).2).send_timestamps = cleanOldTimestamps now m.send_timestamps) ∧
    (((m.evaluate now c mr).2).send_timestamps.filter (fun t => decide (now - 3600 ≤ t)) =
      m.send_timestamps.filter (fun t => decide (now - 3600 ≤ t))) ∧
    (((m.evaluate now c mr).2).send_timestamps <:+ m.send_timestamps) ∧
    (((m.evaluate now c mr).2).statusSendsThisHour now = m.statusSendsThisHour now) ∧
    ((m.recordSend now).send_timestamps = m.send_timestamps ++ [now]) := by
  have hts : ((m.evaluate now c mr).2).send_timestamps =
      cleanOldTimestamps now m.send_timestamps := by
    show cleanOldTimestamps now (cleanOldTimestamps now m.send_timestamps) =
      cleanOldTimestamps now m.send_timestamps
    exact dropWhile_dropWhile_eq _ _
  refine ⟨hts, ?_, ?_, ?_, rfl⟩
  · rw [hts]
    refine filter_dropWhile_eq _ _ (fun a ha => ?_) m.send_timestamps
    simp only [decide_eq_true_eq] at ha
    simp only [decide_eq_false_iff_not]
    omega
  · rw [hts]; exact dropWhile_is_suffix _ _
  · show (cleanOldTimestamps now ((m.evaluate now c mr).2).send_timestamps).length =
      (cleanOldTimestamps now m.send_timestamps).length
    rw [hts]
    unfold cleanOldTimestamps
    rw [dropWhile_dropWhile_eq]

/-- C4: given the sortedness invariant maintained by `record_send` (timestamps
    appended in wall-clock order), the rate-limit check passes iff strictly
    fewer than the hourly cap of recorded sends lie within the trailing
    60-minute window; and once every recorded send is older than 60 minutes
    the cleaning empties the window, so the check passes again (for a positive
    cap). -/
theorem rate_limit_window_check (m : SafetyModule) (now : Int)
    (hs : m.send_timestamps.Sorted (· ≤ ·)) :
    ((m.checkRateLimit now).1 = true ↔
      (m.send_timestamps.filter (fun t => decide (now - 3600 ≤ t))).length <
        m.config.max_sends_per_hour) ∧
    ((∀ t ∈ m.send_timestamps, t < now - 3600) →
      cleanOldTimestamps now m.send_timestamps = [] ∧
      (0 < m.config.max_sends_per_hour → (m.checkRateLimit now).1 = true)) := by
  have hclean : cleanOldTimestamps now m.send_timestamps =
      m.send_timestamps.filter (fun t => decide (now - 3600 ≤ t)) :=
    dropWhile_lt_eq_filter (now - 3600) m.send_timestamps hs
  constructor
  · show (decide ((cleanOldTimestamps now m.send_timestamps).length <
        m.config.max_sends_per_hour) = true) ↔ _
    rw [hclean]
    exact decide_eq_true_iff
  · intro hold
    have hempty : cleanOldTimestamps now m.send_timestamps = [] := by
      unfold cleanOldTimestamps
      rw [List.dropWhile_eq_nil_iff]
      intro x hx
      simpa using hold x hx
    refine ⟨hempty, fun hpos => ?_⟩
    show decide ((cleanOldTimestamps now m.send_timestamps).length <
        m.config.max_sends_per_hour) = true
    rw [hempty]
    simpa using hpos

/-- Witness for C4: two sends recorded (at t=0 and t=500) against a cap of 2;
    evaluated at t=4200, more than an hour later, the window is empty and the
    check passes. -/
theorem rate_limit_window_check_witness :
    ((((SafetyModule.ofConfig
        { dry_run := false, confidence_threshold := 85 / 100, max_sends_per_hour := 2
        }).recordSend 0).recordSend 500).send_timestamps.Sorted (· ≤ ·)) ∧
    (let m := (((SafetyModule.ofConfig
        { dry_run := false, confidence_threshold := 85 / 100, max_sends_per_hour := 2
        }).recordSend 0).recordSend 500)
     ((m.checkRateLimit 4200).1 = true ↔
        (m.send_timestamps.filter (fun t => decide (4200 - 3600 ≤ t))).length <
          m.config.max_sends_per_hour) ∧
     ((∀ t ∈ m.send_timestamps, t < 4200 - 3600) →
        cleanOldTimestamps 4200 m.send_timestamps = [] ∧
        (0 < m.config.max_sends_per_hour → (m.checkRateLimit 4200).1 = true))) :=
  ⟨by decide, rate_limit_window_check _ 4200 (by decide)⟩

/-! ## Claim theorems: rule engine -/

theorem strContainsCI_iff (haystack pattern : String) :
    strContainsCI haystack pattern = true ↔
    (strLower pattern).data <:+: (strLower haystack).data := by
  unfold strContainsCI hasSubstr
  rw [List.any_eq_true]
  constructor
  · rintro ⟨t, ht, hpre⟩
    rw [List.mem_tails] at ht
    rw [List.isPrefixOf_iff_prefix] at hpre
    exact List.infix_iff_prefix_suffix.mpr ⟨t, hpre, ht⟩
  · intro hinf
    obtain ⟨t, hpre, ht⟩ := List.infix_iff_prefix_suffix.mp hinf
    exact ⟨t, (List.mem_tails _ _).mpr ht, List.isPrefixOf_iff_prefix.mpr hpre⟩

theorem evalSubjectStep_true_iff (rule : RuleConfig) (email : EmailData) (matched : List String) :
    (evalSubjectStep rule email matched).1 = true ↔
    (∀ k, rule.conditions.subject_contains = some k →
      (strLower k).data <:+: (strLower email.subject).data) := by
  cases hk : rule.conditions.subject_contains with
  | none =>
      have hstep : (evalSubjectStep rule email matched).1 = true := by
        simp [evalSubjectStep, hk]
      rw [hstep]
      constructor
      · intro _ x hx
        exact Option.noConfusion hx
      · intro _
        rfl
  | some k =>
      by_cases hc : strContainsCI email.subject k = true
      · have hstep : (evalSubjectStep rule email matched).1 = true := by
          simp [evalSubjectStep, hk, hc]
        rw [hstep]
        constructor
        · intro _ x hx
          injection hx with hx
          subst hx
          exact (strContainsCI_iff _ _).mp hc
        · intro _
          rfl
      · have hstep : (evalSubjectStep rule email matched).1 = false := by
          simp [evalSubjectStep, hk, hc]
        constructor
        · intro h
          rw [hstep] at h
          exact Bool.noConfusion h
        · intro hall
          exact absurd ((strContainsCI_iff _ _).mpr (hall k rfl)) hc

theorem evalSenderStep_true_iff (rule : RuleConfig) (email : EmailData) (matched : List String) :
    (evalSenderStep rule email matched).1 = true ↔
    ((∀ p, rule.conditions.sender_contains = some p →
        (strLower p).data <:+: (strLower email.from_address).data) ∧
     (∀ k, rule.conditions.subject_contains = some k →
        (strLower k).data <:+: (strLower email.subject).data)) := by
  cases hp : rule.conditions.sender_contains with
  | none =>
      have hstep : evalSenderStep rule email matched = evalSubjectStep rule email matched := by
        simp [evalSenderStep, hp]
      rw [hstep, evalSubjectStep_true_iff]
      constructor
      · intro h
        exact ⟨fun p hcontr => Option.noConfusion hcontr, h⟩
      · exact fun h => h.2
  | some p =>
      by_cases hc : strContainsCI email.from_address p = true
      · have hstep : evalSenderStep rule email matched =
            evalSubjectStep rule email (matched ++ ["sender_contains"]) := by
          simp [evalSenderStep, hp, hc]
        rw [hstep, evalSubjectStep_true_iff]
        constructor
        · intro h
          refine ⟨?_, h⟩
          intro x hx
          injection hx with hx
          subst hx
          exact (strContainsCI_iff _ _).mp hc
        · exact fun h => h.2
      · have hstep : (evalSenderStep rule email matched).1 = false := by
          simp [evalSenderStep, hp, hc]
        constructor
        · intro h
          rw [hstep] at h
          exact Bool.noConfusion h
        · intro h
          exact absurd ((strContainsCI_iff _ _).mpr (h.1 p rfl)) hc

theorem evalConfidenceStep_true_iff (rule : RuleConfig) (email : EmailData)
    (c : ClassificationResult) (matched : List String) :
    (evalConfidenceStep rule email c matched).1 = true ↔
    ((∀ q, rule.conditions.confidence_min = some q → q ≤ c.confidence) ∧
     (∀ p, rule.conditions.sender_contains = some p →
        (strLower p).data <:+: (strLower email.from_address).data) ∧
     (∀ k, rule.conditions.subject_contains = some k →
        (strLower k).data <:+: (strLower email.subject).data)) := by
  cases hm : rule.conditions.confidence_min with
  | none =>
      have hstep : evalConfidenceStep rule email c matched =
          evalSenderStep rule email matched := by
        simp [evalConfidenceStep, hm]
      rw [hstep, evalSenderStep_true_iff]
      constructor
      · intro h
        exact ⟨fun q hcontr => Option.noConfusion hcontr, h.1, h.2⟩
      · exact fun h => ⟨h.2.1, h.2.2⟩
  | some q =>
      by_cases hc : c.confidence < q
      · have hstep : (evalConfidenceStep rule email c matched).1 = false := by
          simp [evalConfidenceStep, hm, hc]
        constructor
        · intro h
          rw [hstep] at h
          exact Bool.noConfusion h
        · intro h
          exact absurd (h.1 q rfl) (not_le.mpr hc)
      · have hstep : evalConfidenceStep rule email c matched =
            evalSenderStep rule email (matched ++ ["confidence_min"]) := by
          simp [evalConfidenceStep, hm, hc]
        rw [hstep, evalSenderStep_true_iff]
        constructor
        · intro h
          refine ⟨?_, h.1, h.2⟩
          intro x hx
          injection hx with hx
          subst hx
          exact not_lt.mp hc
        · exact fun h => ⟨h.2.1, h.2.2⟩

theorem evalPriorityStep_true_iff (rule : RuleConfig) (email : EmailData)
    (c : ClassificationResult) (matched : List String) :
    (evalPriorityStep rule email c matched).1 = true ↔
    ((∀ x, rule.conditions.priority = some x → c.priority = x) ∧
     (∀ q, rule.conditions.confidence_min = some q → q ≤ c.confidence) ∧
     (∀ p, rule.conditions.sender_contains = some p →
        (strLower p).data <:+: (strLower email.from_address).data) ∧
     (∀ k, rule.conditions.subject_contains = some k →
        (strLower k).data <:+: (strLower email.subject).data)) := by
  cases hp : rule.conditions.priority with
  | none =>
      have hstep : evalPriorityStep rule email c matched =
          evalConfidenceStep rule email c matched := by
        simp [evalPriorityStep, hp]
      rw [hstep, evalConfidenceStep_true_iff]
      constructor
      · intro h
        exact ⟨fun x hcontr => Option.noConfusion hcontr, h⟩
      · exact fun h => h.2
  | some expected =>
      by_cases he : c.priority = expected
      · have hstep : evalPriorityStep rule email c matched =
            evalConfidenceStep rule email c (matched ++ ["priority"]) := by
          simp [evalPriorityStep, hp, he]
        rw [hstep, evalConfidenceStep_true_iff]
        constructor
        · intro h
          refine ⟨?_, h⟩
          intro x hx
          injection hx with hx
          subst hx
          exact he
        · exact fun h => h.2
      · have hstep : (evalPriorityStep rule email c matched).1 = false := by
          simp [evalPriorityStep, hp, he]
        constructor
        · intro h
          rw [hstep] at h
          exact Bool.noConfusion h
        · intro h
          exact absurd (h.1 expected rfl) he

theorem evaluateRule_true_iff (rule : RuleConfig) (email : EmailData)
    (c : ClassificationResult) :
    (evaluateRule rule email c).1 = true ↔ conditionsSatisfied rule email c := by
  unfold conditionsSatisfied
  cases hi : rule.conditions.intent with
  | none =>
      have hstep : evaluateRule rule email c = evalPriorityStep rule email c [] := by
        simp [evaluateRule, hi]
      rw [hstep, evalPriorityStep_true_iff]
      constructor
      · intro h
        exact ⟨fun x hcontr => Option.noConfusion hcontr, h⟩
      · exact fun h => h.2
  | some expected =>
      by_cases he : c.intent = expected
      · have hstep : evaluateRule rule email c = evalPriorityStep rule email c ["intent"] := by
          simp [evaluateRule, hi, he]
        rw [hstep, evalPriorityStep_true_iff]
        constructor
        · intro h
          refine ⟨?_, h⟩
          intro x hx
          injection hx with hx
          subst hx
          exact he
        · exact fun h => h.2
      · have hstep : (evaluateRule rule email c).1 = false := by
          simp [evaluateRule, hi, he]
        constructor
        · intro h
          rw [hstep] at h
          exact Bool.noConfusion h
        · intro h
          exact absurd (h.1 expected rfl) he

/-- C2: `RuleEngine.match` returns the first rule (in list order) all of whose
    conditions are satisfied — intent and priority by exact equality, minimum
    confidence by inclusive `≥`, sender/subject by case-insensitive substring
    containment — and `none` exactly when no rule is fully satisfied; a later
    rule is never returned while an earlier rule is satisfied. -/
theorem rule_engine_first_match (rules : List RuleConfig) (email : EmailData)
    (c : ClassificationResult) :
    (matchRules rules email c = none ↔ ∀ r ∈ rules, ¬ conditionsSatisfied r email c) ∧
    (∀ mr, matchRules rules email c = some mr →
      ∃ (i : Nat) (r : RuleConfig), rules[i]? = some r ∧ conditionsSatisfied r email c ∧
        mr = toMatchedRule r (evaluateRule r email c).2 ∧
        (∀ (j : Nat) (r2 : RuleConfig), j < i → rules[j]? = some r2 →
          ¬ conditionsSatisfied r2 email c)) := by
  induction rules with
  | nil =>
      constructor
      · simp [matchRules]
      · intro mr h
        simp [matchRules] at h
  | cons rule rest ih =>
      by_cases h : (evaluateRule rule email c).1 = true
      · have hsat : conditionsSatisfied rule email c := (evaluateRule_true_iff _ _ _).mp h
        have hm : matchRules (rule :: rest) email c =
            some (toMatchedRule rule (evaluateRule rule email c).2) := by
          simp [matchRules, h]
        constructor
        · rw [hm]
          constructor
          · intro hcontr
            cases hcontr
          · intro hall
            exact absurd hsat (hall rule (List.mem_cons_self rule rest))
        · intro mr hmr
          rw [hm] at hmr
          injection hmr with hmr
          refine ⟨0, rule, by simp, hsat, hmr.symm, ?_⟩
          intro j r2 hj _
          omega
      · have hnot : ¬ conditionsSatisfied rule email c := fun hs =>
          h ((evaluateRule_true_iff _ _ _).mpr hs)
        have hm : matchRules (rule :: rest) email c = matchRules rest email c := by
          simp [matchRules, h]
        constructor
        · rw [hm, ih.1]
          constructor
          · intro hall r hr
            rcases List.mem_cons.mp hr with hr | hr
            · rw [hr]
              exact hnot
            · exact hall r hr
          · intro hall r hr
            exact hall r (List.mem_cons_of_mem rule hr)
        · intro mr hmr
          rw [hm] at hmr
          obtain ⟨i, r, hi, hsat, hmr_eq, hearlier⟩ := ih.2 mr hmr
          refine ⟨i + 1, r, by simpa using hi, hsat, hmr_eq, ?_⟩
          intro j r2 hj hjr
          cases j with
          | zero =>
              simp only [List.getElem?_cons_zero, Option.some.injEq] at hjr
              rw [← hjr]
              exact hnot
          | succ j2 =>
              exact hearlier j2 r2 (by omega) (by simpa using hjr)

/-- C3 counterexample: a rule with an empty condition set does match — the
    engine returns it as the matched rule for an arbitrary message and
    classification, contradicting the claim that it never matches. -/
theorem empty_rule_matches_counterexample :
    matchRules
      [{ name := "Empty", conditions := {}, action := "ignore" }]
      { id := "1", from_address := "alice@example.com", to_address := "agent@gmail.com",
        subject := "Hello", body := "hi", date := "2025-06-14" }
      { intent := "general_inquiry", priority := "medium", confidence := 9 / 10 } =
    some { rule_name := "Empty", action := "ignore", auto_send := false,
           template := none, conditions_matched := [] } := by
  rfl

/-- C3 amended: a rule with an empty condition set always matches (the
    conjunction over no conditions is vacuously true); the engine evaluates it
    without error and returns it as the matched rule whenever no earlier rule
    matched. -/
theorem empty_conditions_rule_always_matches (rule : RuleConfig) (email : EmailData)
    (c : ClassificationResult) (hempty : rule.conditions = {})
    (earlier rest : List RuleConfig)
    (hearlier : ∀ r ∈ earlier, (evaluateRule r email c).1 = false) :
    evaluateRule rule email c = (true, []) ∧
    matchRules (earlier ++ rule :: rest) email c = some (toMatchedRule rule []) := by
  have h1 : evaluateRule rule email c = (true, []) := by
    simp [evaluateRule, evalPriorityStep, evalConfidenceStep, evalSenderStep,
      evalSubjectStep, hempty]
  refine ⟨h1, ?_⟩
  induction earlier with
  | nil =>
      simp [matchRules, h1]
  | cons r rs ih =>
      have hr := hearlier r (List.mem_cons_self r rs)
      simp only [List.cons_append, matchRules, hr]
      simp only [Bool.false_eq_true, if_false]
      exact ih (fun x hx => hearlier x (List.mem_cons_of_mem r hx))

/-- Witness for the amended C3: a concrete catch-all rule with no conditions,
    no earlier rules, matched against a concrete message. -/
theorem empty_conditions_rule_always_matches_witness :
    (({ name := "CatchAll", conditions := {}, action := "flag" } : RuleConfig).conditions
        = {}) ∧
    (evaluateRule { name := "CatchAll", conditions := {}, action := "flag" }
        { id := "9", from_address := "bob@example.com", to_address := "agent@gmail.com",
          subject := "Anything", body := "text", date := "2025-06-14" }
        { intent := "spam", priority := "low", confidence := 1 / 2 } = (true, []) ∧
      matchRules ([] ++ { name := "CatchAll", conditions := {}, action := "flag" } :: [])
        { id := "9", from_address := "bob@example.com", to_address := "agent@gmail.com",
          subject := "Anything", body := "text", date := "2025-06-14" }
        { intent := "spam", priority := "low", confidence := 1 / 2 } =
        some (toMatchedRule { name := "CatchAll", conditions := {}, action := "flag" } [])) :=
  ⟨rfl, empty_conditions_rule_always_matches _ _ _ rfl [] [] (by simp)⟩

/-! ## Claim theorems: thread resolver -/

/-- C5 (code evaluation at the failing input): with a configured depth limit
    of 0, the resolver returns every accumulated thread message instead of at
    most 0 — the Python slice `unique[-depth:]` is `unique[0:]` when
    `depth == 0`, so `_sort_and_limit_thread` fails to truncate, contradicting
    its own docstring ("limit to configured depth"). -/
theorem thread_depth_zero_returns_all :
    (fetchThreadContext
      ⟨Except.ok (),
       fun _ v =>
         if v = "r1" then
           Except.ok
             [{ id := "2", from_address := "alice@x.com", to_address := "me@x.com",
                subject := "Hi", body := "b", date := "",
                message_id := some "<a@x.com>" },
              { id := "3", from_address := "carol@x.com", to_address := "me@x.com",
                subject := "Hi again", body := "b2", date := "",
                message_id := some "<b@x.com>" }]
         else Except.ok [],
       fun _ => Except.ok []⟩
      (fun _ => none) 0 (some "<me@x.com>") (some "<r1>") none none none).1.length = 2 := by
  rfl

/-- C6 counterexample: with a References chain of two identifiers where the
    transport answers the first search and raises on the second, the resolver
    returns a non-empty partial result and records no warning (the failure is
    swallowed with a debug log), contradicting the claim that any transport
    failure yields an empty sequence plus a warning.  The third conjunct shows
    the failing operation was indeed exercised. -/
theorem partial_failure_counterexample :
    (fetchThreadContext
      ⟨Except.ok (),
       fun _ v =>
         if v = "r1" then
           Except.ok
             [{ id := "2", from_address := "alice@x.com", to_address := "me@x.com",
                subject := "Hi", body := "b", date := "",
                message_id := some "<a@x.com>" }]
         else Except.error "boom",
       fun _ => Except.ok []⟩
      (fun _ => none) 5 (some "<me@x.com>") (some "<r1> <r2>") none none none =
      ([{ from_addr := "alice@x.com", subject := "Hi", body := "b", date := "",
          message_id := "<a@x.com>" }], false,
       [TQuery.connectQ, TQuery.headerQ "Message-ID" "r1",
        TQuery.headerQ "Message-ID" "r2"])) ∧
    Transport.headerSearch
      ⟨Except.ok (),
       fun _ v =>
         if v = "r1" then
           Except.ok
             [{ id := "2", from_address := "alice@x.com", to_address := "me@x.com",
                subject := "Hi", body := "b", date := "",
                message_id := some "<a@x.com>" }]
         else Except.error "boom",
       fun _ => Except.ok []⟩ "Message-ID" "r2" = Except.error "boom" :=
  ⟨rfl, rfl⟩

/-- C6 amended: thread resolution never throws; a connection-level transport
    failure is caught, yields the empty sequence, and records a warning.  A
    failure of an individual search after the connection is established is
    swallowed where it occurs (debug-logged, no warning): that query
    contributes no entries while results already accumulated are kept, so the
    overall result can be a non-empty partial one. -/
theorem connect_failure_empty_with_warning (tr : Transport) (pd : String → Option Int)
    (selfDepth : Nat) (message_id references in_reply_to subject : Option String)
    (maxMessages : Option Nat) (err : String)
    (hid : optTruthy message_id = true ∨ optTruthy references = true ∨
      optTruthy in_reply_to = true)
    (hconn : tr.connect = Except.error err) :
    fetchThreadContext tr pd selfDepth message_id references in_reply_to subject maxMessages =
      ([], true, [TQuery.connectQ]) := by
  unfold fetchThreadContext
  rw [if_neg]
  · rw [hconn]
  · rcases hid with h | h | h <;> simp [h]

/-- Witness for the amended C6: a transport whose connection is down, invoked
    for a message that does carry a reply pointer. -/
theorem connect_failure_empty_with_warning_witness :
    (optTruthy (some "<me@x.com>") = true ∨ optTruthy (none : Option String) = true ∨
      optTruthy (some "<p@x.com>") = true) ∧
    (Transport.connect ⟨Except.error "down", fun _ _ => Except.ok [], fun _ => Except.ok []⟩ =
      Except.error "down") ∧
    fetchThreadContext ⟨Except.error "down", fun _ _ => Except.ok [], fun _ => Except.ok []⟩
      (fun _ => none) 5 (some "<me@x.com>") none (some "<p@x.com>") (some "Hello there") none =
      ([], true, [TQuery.connectQ]) :=
  ⟨Or.inl (by decide), rfl,
    connect_failure_empty_with_warning _ _ _ _ _ _ _ _ "down" (Or.inl (by decide)) rfl⟩

/-- C7 counterexample: a message with no reply pointer and no ancestor chain,
    but with a message identifier and a subject, does issue a transport query:
    the standalone resolver falls through to the subject search and can even
    return a non-empty result, contradicting the claim that no transport query
    is issued and the result is always empty. -/
theorem subject_fallback_query_counterexample :
    fetchThreadContext
      ⟨Except.ok (), fun _ _ => Except.ok [],
       fun _ =>
         Except.ok
           [{ id := "7", from_address := "bob@x.com", to_address := "me@x.com",
              subject := "Project update plan", body := "earlier text", date := "",
              message_id := some "<s@x.com>" }]⟩
      (fun _ => none) 5 (some "<me@x.com>") none none (some "Project update plan") none =
      ([{ from_addr := "bob@x.com", subject := "Project update plan",
          body := "earlier text", date := "", message_id := "<s@x.com>" }], false,
       [TQuery.connectQ, TQuery.subjectQ "Project update plan"]) := by
  rfl

/-- C7 amended: a message with no reply-pointer and no ancestor chain is
    skipped entirely by the unread-fetch pipeline's thread-population guard
    (empty context, no transport query); the standalone `fetch_thread_context`
    likewise returns empty without issuing any query when the message
    identifier is also absent — but with a message identifier present it
    proceeds and may issue a subject-fallback search (see the
    counterexample). -/
theorem no_thread_fields_no_query (tr : Transport) (pd : String → Option Int) (depth : Nat)
    (includeCtx : Bool) (email : EmailData)
    (hirt : optTruthy email.in_reply_to = false)
    (href : optTruthy email.references = false)
    (hmsgs : email.thread_messages = []) :
    enrichWithThreadContext tr pd depth includeCtx email = (email, []) ∧
    (∀ subject maxMessages, optTruthy email.message_id = false →
      fetchThreadContext tr pd depth email.message_id email.references email.in_reply_to
        subject maxMessages = ([], false, [])) := by
  constructor
  · have hthread : email.isPartOfThread = false := by
      simp [EmailData.isPartOfThread, hirt, href, hmsgs]
    unfold enrichWithThreadContext
    rw [if_neg]
    simp [hthread]
  · intro subject maxMessages hmid
    unfold fetchThreadContext
    rw [if_pos]
    exact ⟨by simp [hmid], by simp [href], by simp [hirt]⟩

/-- Witness for the amended C7: a concrete message with no thread-linking
    fields (and no message identifier), against a live transport. -/
theorem no_thread_fields_no_query_witness :
    (optTruthy (EmailData.in_reply_to { id := "3", from_address := "x@y.z", to_address := "me@x.com", subject := "Hello there", body := "b", date := "" }) = false) ∧
    (optTruthy (EmailData.references { id := "3", from_address := "x@y.z", to_address := "me@x.com", subject := "Hello there", body := "b", date := "" }) = false) ∧
    (EmailData.thread_messages { id := "3", from_address := "x@y.z", to_address := "me@x.com", subject := "Hello there", body := "b", date := "" } = []) ∧
    (enrichWithThreadContext ⟨Except.ok (), fun _ _ => Except.ok [], fun _ => Except.ok []⟩ (fun _ => none) 5 true { id := "3", from_address := "x@y.z", to_address := "me@x.com", subject := "Hello there", body := "b", date := "" } =
      ({ id := "3", from_address := "x@y.z", to_address := "me@x.com", subject := "Hello there", body := "b", date := "" }, []) ∧
     (∀ subject maxMessages,
        optTruthy (EmailData.message_id { id := "3", from_address := "x@y.z", to_address := "me@x.com", subject := "Hello there", body := "b", date := "" }) = false →
        fetchThreadContext ⟨Except.ok (), fun _ _ => Except.ok [], fun _ => Except.ok []⟩ (fun _ => none) 5
          (EmailData.message_id { id := "3", from_address := "x@y.z", to_address := "me@x.com", subject := "Hello there", body := "b", date := "" })
          (EmailData.references { id := "3", from_address := "x@y.z", to_address := "me@x.com", subject := "Hello there", body := "b", date := "" })
          (EmailData.in_reply_to { id := "3", from_address := "x@y.z", to_address := "me@x.com", subject := "Hello there", body := "b", date := "" })
          subject maxMessages = ([], false, []))) :=
  ⟨rfl, rfl, rfl,
    no_thread_fields_no_query _ _ 5 true _ rfl rfl rfl⟩
/-! ## Claim theorems: action registry -/

/-- C8: when the reply generator signals failure (returns `None`), the
    reply/draft_reply/flag_and_draft handler returns the `error` outcome with
    no generated text and leaves the safety state untouched; the handler is a
    total function, so the internal failure maps to the `error` outcome
    rather than propagating. -/
theorem reply_generation_failure_error (cl : ReplyClients)
    (templates : List (String × String)) (dry_run : Bool) (safety : SafetyModule)
    (now : Int) (email : EmailData) (c : ClassificationResult) (mr : MatchedRule)
    (sd : SafetyDecision)
    (hgen : cl.generate (templateTextOf templates mr) = none) :
    replyActionExecute cl templates dry_run safety now email c mr sd =
      (("error", none), safety) := by
  unfold replyActionExecute
  rw [hgen]

/-- Witness for C8: a generator that always fails, under a rule that would
    otherwise auto-send. -/
theorem reply_generation_failure_error_witness :
    ((⟨fun _ => none, true, true⟩ : ReplyClients).generate
        (templateTextOf []
          { rule_name := "Meeting", action := "reply", auto_send := true }) = none) ∧
    replyActionExecute (⟨fun _ => none, true, true⟩ : ReplyClients) [] false
      (SafetyModule.ofConfig {}) 0
      { id := "1", from_address := "alice@example.com", to_address := "agent@gmail.com",
        subject := "Meet?", body := "hi", date := "2025-06-14" }
      { intent := "meeting_request", priority := "medium", confidence := 93 / 100 }
      { rule_name := "Meeting", action := "reply", auto_send := true }
      { can_execute := true, can_auto_send := true } =
      (("error", none), SafetyModule.ofConfig {}) :=
  ⟨rfl, reply_generation_failure_error _ _ _ _ _ _ _ _ _ rfl⟩

/-- C9: when a reply is generated but auto-send is not permitted (or dry-run
    is active), the handler's outcome is `flagged_and_drafted` for a
    `flag_and_draft` rule and `draft_saved` otherwise, whatever the draft-save
    collaborator reports — a failed draft save is never surfaced as the
    `error` outcome. -/
theorem draft_outcome_ignores_save_result (cl : ReplyClients)
    (templates : List (String × String)) (dry_run : Bool) (safety : SafetyModule)
    (now : Int) (email : EmailData) (c : ClassificationResult) (mr : MatchedRule)
    (sd : SafetyDecision) (t : String)
    (hgen : cl.generate (templateTextOf templates mr) = some t) (ht : t ≠ "")
    (hnosend : sd.can_auto_send = false ∨ dry_run = true) :
    ∀ b : Bool,
      replyActionExecute { cl with saveDraft := b } templates dry_run safety now email c mr sd =
        ((if mr.action = "flag_and_draft" then "flagged_and_drafted" else "draft_saved",
          some t), safety) := by
  intro b
  unfold replyActionExecute
  rw [show (({ cl with saveDraft := b } : ReplyClients)).generate
      (templateTextOf templates mr) = some t from hgen]
  have hss : (sd.can_auto_send && !dry_run) = false := by
    rcases hnosend with h | h <;> simp [h]
  simp only [if_neg ht, hss, Bool.false_eq_true, if_false]
  by_cases ha : mr.action = "flag_and_draft" <;> simp [ha]

/-- Witness for C9: a successful generation with auto-send disallowed; the
    outcome is `flagged_and_drafted` for the `flag_and_draft` rule for either
    draft-save result. -/
theorem draft_outcome_ignores_save_result_witness :
    ((⟨fun _ => some "Thanks for reaching out.", true, true⟩ : ReplyClients).generate
        (templateTextOf []
          { rule_name := "Urgent", action := "flag_and_draft", auto_send := false }) =
      some "Thanks for reaching out.") ∧
    ("Thanks for reaching out." ≠ "") ∧
    (({ can_execute := true, can_auto_send := false } : SafetyDecision).can_auto_send = false ∨
      False = true) ∧
    (∀ b : Bool,
      replyActionExecute
        { (⟨fun _ => some "Thanks for reaching out.", true, true⟩ : ReplyClients) with
          saveDraft := b } [] false (SafetyModule.ofConfig {}) 0
        { id := "4", from_address := "carol@example.com", to_address := "agent@gmail.com",
          subject := "Outage", body := "all down", date := "2025-06-14" }
        { intent := "urgent_issue", priority := "high", confidence := 96 / 100 }
        { rule_name := "Urgent", action := "flag_and_draft", auto_send := false }
        { can_execute := true, can_auto_send := false } =
        ((if ({ rule_name := "Urgent", action := "flag_and_draft", auto_send := false }
              : MatchedRule).action = "flag_and_draft" then "flagged_and_drafted"
          else "draft_saved", some "Thanks for reaching out."),
         SafetyModule.ofConfig {})) :=
  ⟨rfl, by decide, Or.inl rfl,
    draft_outcome_ignores_save_result _ _ _ _ _ _ _ _ _ _ rfl (by decide) (Or.inl rfl)⟩
